import Mathlib

/-!
Verification of the frame-scoped render graph resource scheduler and the
rendering helpers around it (fullscreen passes, atmosphere plugin, bind
group machinery). Pure functions from the Rust source are embedded as
executable Lean definitions; the floating point scalar `f32` is modelled
by the rationals, and GPU-side objects (wgpu layouts, shaders, devices)
are modelled as opaque data carried around unchanged. Parts of the core
(resource table, dependency sets, scheduler) whose Rust source is not in
the analyzed excerpt are modelled from the specification document and are
marked as such in their doc comments.
-/

/-- Componentwise 3-vector, modelling `bevy_math::Vec3` with rational scalars. -/
structure Vec3 where
  x : ℚ
  y : ℚ
  z : ℚ
deriving DecidableEq, Repr

namespace Vec3

/-- Scalar multiplication, modelling `Vec3 * f32` (used by `*=` in the source). -/
def smul (v : Vec3) (s : ℚ) : Vec3 :=
  ⟨v.x * s, v.y * s, v.z * s⟩

/-- The zero vector, `Vec3::ZERO`. -/
def zero : Vec3 := ⟨0, 0, 0⟩

end Vec3

/-- Linear RGBA color, modelling `bevy_color::LinearRgba`. -/
structure LinearRgba where
  red : ℚ
  green : ℚ
  blue : ℚ
  alpha : ℚ
deriving DecidableEq, Repr

/- ## Atmosphere (bevy_pbr/src/atmosphere/mod.rs) -/

/-- The density profile of a medium, from `enum DensityProfile`. -/
inductive DensityProfile
  | exponential (scale_height : ℚ)
  | tent (center_altitude layer_width exponent : ℚ)
deriving DecidableEq, Repr

/-- The phase function of a medium, from `enum PhaseFunction`. -/
inductive PhaseFunction
  | rayleigh
  | henyeyGreenstein (g : ℚ)
  | cornetteShanks (g : ℚ)
  | dualLobe (g1 g2 w : ℚ)
deriving DecidableEq, Repr

/-- A medium or particulate interacting with light, from `struct Medium`. -/
structure Medium where
  scattering : Vec3
  absorption : Vec3
  density_profile : DensityProfile
  phase_function : PhaseFunction
deriving DecidableEq, Repr

/-- The atmosphere component, from `struct Atmosphere`. The `[Medium; 3]`
array of layers is modelled as a triple. -/
structure Atmosphere where
  bottom_radius : ℚ
  top_radius : ℚ
  ground_albedo : Vec3
  layers : Medium × Medium × Medium
deriving DecidableEq, Repr

/-- `Atmosphere::with_density_multiplier`: multiplies each layer's
scattering and absorption by `mult`, leaving every other field alone. -/
def Atmosphere.with_density_multiplier (a : Atmosphere) (mult : ℚ) : Atmosphere :=
  let scale : Medium → Medium := fun layer =>
    { layer with
        scattering := layer.scattering.smul mult
        absorption := layer.absorption.smul mult }
  { a with layers := (scale a.layers.1, scale a.layers.2.1, scale a.layers.2.2) }

/- ## AtmospherePlugin::finish (bevy_pbr/src/atmosphere/mod.rs) -/

/-- The device capabilities queried by `AtmospherePlugin::finish`:
whether the adapter's downlevel flags contain `COMPUTE_SHADERS`, and
whether `Rgba16Float`'s allowed usages contain `STORAGE_BINDING`. -/
structure RenderAdapterCaps where
  compute_shaders : Bool
  rgba16float_storage_binding : Bool
deriving DecidableEq, Repr

/-- The observable effect of `AtmospherePlugin::finish` on the render app:
which warnings were logged and which resources, systems, render-graph
nodes and edge sets were registered. -/
structure AtmosphereFinishEffect where
  warnings : List String
  resources : List String
  systems : List String
  graph_nodes : List String
  graph_edge_sets : List String
deriving DecidableEq, Repr

/-- The six resources initialized by `AtmospherePlugin::finish`. -/
def atmosphereResources : List String :=
  ["AtmosphereBindGroupLayouts", "RenderSkyBindGroupLayouts", "AtmosphereSamplers",
   "AtmosphereLutPipelines", "AtmosphereTransforms",
   "SpecializedRenderPipelines<RenderSkyBindGroupLayouts>"]

/-- The five systems added by `AtmospherePlugin::finish`. -/
def atmosphereSystems : List String :=
  ["configure_camera_depth_usages", "queue_render_sky_pipelines",
   "prepare_atmosphere_textures", "prepare_atmosphere_transforms",
   "prepare_atmosphere_bind_groups"]

/-- The two render-graph nodes added by `AtmospherePlugin::finish`. -/
def atmosphereGraphNodes : List String :=
  ["AtmosphereLutsNode", "RenderSkyNode"]

/-- The two edge sets added by `AtmospherePlugin::finish`. -/
def atmosphereGraphEdgeSets : List String :=
  ["EndPrepasses-RenderLuts-StartMainPass", "MainOpaquePass-RenderSky-MainTransparentPass"]

/-- `AtmospherePlugin::finish`: if the render sub-app is absent, return
silently; if a capability check fails, log one warning and return without
registering anything; otherwise register all resources, systems, nodes
and edges. -/
def atmospherePluginFinish (has_render_app : Bool) (caps : RenderAdapterCaps) :
    AtmosphereFinishEffect :=
  if !has_render_app then
    ⟨[], [], [], [], []⟩
  else if !caps.compute_shaders then
    ⟨["AtmospherePlugin not loaded. GPU lacks support for compute shaders."],
     [], [], [], []⟩
  else if !caps.rgba16float_storage_binding then
    ⟨["AtmospherePlugin not loaded. GPU lacks support: TextureFormat::Rgba16Float does not support TextureUsages::STORAGE_BINDING."],
     [], [], [], []⟩
  else
    ⟨[], atmosphereResources, atmosphereSystems, atmosphereGraphNodes,
     atmosphereGraphEdgeSets⟩

/- ## BindGroupLayout (bevy_render/src/render_resource/bind_group_layout.rs) -/

/-- The wrapped `wgpu::BindGroupLayout`, modelled as opaque descriptor data. -/
structure WgpuBindGroupLayout where
  descriptor : Nat
deriving DecidableEq, Repr

/-- `struct BindGroupLayout`: an atomically allocated id plus the erased
wgpu layout value. -/
structure BindGroupLayout where
  id : Nat
  value : WgpuBindGroupLayout
deriving DecidableEq, Repr

namespace BindGroupLayout

/-- `impl PartialEq for BindGroupLayout`: compares only the ids. -/
def beq (a b : BindGroupLayout) : Bool :=
  a.id == b.id

/-- `impl Hash for BindGroupLayout`: writes only the id into the hasher.
The hasher is modelled as the list of words written into it so far. -/
def hashInto (state : List Nat) (a : BindGroupLayout) : List Nat :=
  state ++ [a.id]

/-- `impl From<wgpu::BindGroupLayout> for BindGroupLayout`: wraps the value
with a freshly allocated id. `define_atomic_id!` is modelled by threading
the counter explicitly; each call returns the bumped counter. -/
def fromWgpu (counter : Nat) (value : WgpuBindGroupLayout) :
    BindGroupLayout × Nat :=
  (⟨counter, value⟩, counter + 1)

end BindGroupLayout

/- ## AsBindGroup (bevy_render/src/render_resource/bind_group.rs) -/

/-- An error during `AsBindGroup::as_bind_group`, from `enum AsBindGroupError`. -/
inductive AsBindGroupError
  | RetryNextUpdate
  | CreateBindGroupDirectly
  | InvalidSamplerType (binding : Nat) (given required : String)
deriving DecidableEq, Repr

/-- An owned binding resource, modelled as an opaque resource id. -/
structure OwnedBindingResource where
  resource : Nat
deriving DecidableEq, Repr

/-- `OwnedBindingResource::get_binding`: the borrowed binding resource used
to build a `BindGroupEntry`, identified by the same underlying resource. -/
def OwnedBindingResource.get_binding (r : OwnedBindingResource) : Nat :=
  r.resource

/-- `wgpu::BindGroupEntry`: a binding index and the bound resource. -/
structure BindGroupEntry where
  binding : Nat
  resource : Nat
deriving DecidableEq, Repr

/-- A created bind group, recording exactly what
`render_device.create_bind_group(label, layout, entries)` was given. -/
structure BindGroup where
  label : Option String
  layout_id : Nat
  entries : List BindGroupEntry
deriving DecidableEq, Repr

/-- `RenderDevice::create_bind_group`, modelled as recording its arguments. -/
def createBindGroup (label : Option String) (layout : BindGroupLayout)
    (entries : List BindGroupEntry) : BindGroup :=
  ⟨label, layout.id, entries⟩

/-- `struct UnpreparedBindGroup<T>`: bindings keyed by binding index, plus data. -/
structure UnpreparedBindGroup (δ : Type) where
  bindings : List (Nat × OwnedBindingResource)
  data : δ

/-- `struct PreparedBindGroup<T>`: bindings, the created bind group, and data. -/
structure PreparedBindGroup (δ : Type) where
  bindings : List (Nat × OwnedBindingResource)
  bind_group : BindGroup
  data : δ

/-- The default implementation of `AsBindGroup::as_bind_group` (bind_group.rs
lines 348-372), as a function of the outcome of `unprepared_bind_group`:
propagate its error, or build one `BindGroupEntry` per binding, create the
bind group, and return the prepared bind group. -/
def as_bind_group {δ : Type} (label : Option String) (layout : BindGroupLayout)
    (unprepared : Except AsBindGroupError (UnpreparedBindGroup δ)) :
    Except AsBindGroupError (PreparedBindGroup δ) :=
  match unprepared with
  | .error e => .error e
  | .ok u =>
    let entries := u.bindings.map fun ib => BindGroupEntry.mk ib.1 ib.2.get_binding
    let bind_group := createBindGroup label layout entries
    .ok ⟨u.bindings, bind_group, u.data⟩

/- ## MainOpaquePass3dNode (bevy_core_pipeline/src/core_3d/main_opaque_pass_3d_node.rs) -/

/-- Modelled from the spec: the fatal error type a render-graph node may
return (`NodeRunError`); its Rust definition is not part of the excerpt,
and only its existence matters for the claims here. -/
inductive NodeRunError
  | nodeFailed
deriving DecidableEq, Repr

/-- A binned render phase as seen by the node: whether it is empty and the
outcome of its `render` call. -/
structure RenderPhase where
  is_empty : Bool
  render_result : Except String Unit
deriving Repr

/-- The view query data handed to `MainOpaquePass3dNode::run`, with GPU
objects abstracted to ids. -/
structure MainOpaqueViewInput where
  viewport : Option Nat
  opaque_phase : RenderPhase
  alpha_mask_phase : RenderPhase
  skybox_pipeline : Option Nat
  skybox_bind_group : Option (Nat × Nat)
  pipeline_cache : List (Nat × Nat)
deriving Repr

/-- `PipelineCache::get_render_pipeline`: look a pipeline id up in the cache. -/
def getRenderPipeline (cache : List (Nat × Nat)) (id : Nat) : Option Nat :=
  (cache.find? (fun p => p.1 == id)).map (·.2)

/-- The observable outcome of `MainOpaquePass3dNode::run`: the returned
result, the error messages logged, and whether the skybox was drawn. -/
structure MainOpaqueRunEffect where
  result : Except NodeRunError Unit
  logs : List String
  skybox_drawn : Bool
deriving Repr

/-- `MainOpaquePass3dNode::run` (main_opaque_pass_3d_node.rs lines 33-126):
render the opaque and alpha-mask phases, logging (not propagating) their
errors; draw the skybox only when both skybox components are present and
the pipeline is already in the cache; always return `Ok(())`. -/
def mainOpaquePassRun (inp : MainOpaqueViewInput) : MainOpaqueRunEffect :=
  let opaqueLogs :=
    if !inp.opaque_phase.is_empty then
      match inp.opaque_phase.render_result with
      | .error err => ["Error encountered while rendering the opaque phase " ++ err]
      | .ok _ => []
    else []
  let alphaLogs :=
    if !inp.alpha_mask_phase.is_empty then
      match inp.alpha_mask_phase.render_result with
      | .error err => ["Error encountered while rendering the alpha mask phase " ++ err]
      | .ok _ => []
    else []
  let skybox :=
    match inp.skybox_pipeline, inp.skybox_bind_group with
    | some pid, some _ => (getRenderPipeline inp.pipeline_cache pid).isSome
    | _, _ => false
  { result := Except.ok (), logs := opaqueLogs ++ alphaLogs, skybox_drawn := skybox }

/- ## Render graph core (bevy_render_graph; core module modelled from the spec) -/

/-- Modelled from the spec: the error taxonomy of section 7. The Rust
definitions of these errors are not part of the excerpt. -/
inductive RenderGraphError
  | InvalidHandle
  | StaleHandle
  | DependencyCycle
  | UndeclaredAccess
  | UnsupportedResource
deriving DecidableEq, Repr

/-- Modelled from the spec: a resource handle is an index into the frame's
resource table plus a generation/epoch tag. -/
structure ResourceHandle where
  index : Nat
  epoch : Nat
deriving DecidableEq, Repr

/-- Modelled from the spec: the frame's resource table, owning the backing
objects and stamped with the current epoch. -/
structure ResourceTable (α : Type) where
  epoch : Nat
  objects : List α

/-- Modelled from the spec: `resolve(handle)` fails with `InvalidHandle`
when the handle's epoch differs from the table's current epoch or when its
index is out of the table's range, and otherwise returns the backing object. -/
def ResourceTable.resolve {α : Type} (t : ResourceTable α) (h : ResourceHandle) :
    Except RenderGraphError α :=
  if h.epoch ≠ t.epoch then
    .error .InvalidHandle
  else
    match t.objects[h.index]? with
    | some obj => .ok obj
    | none => .error .InvalidHandle

/-- The graph-builder state visible to the helpers in `fullscreen.rs`: the
next id handed out by `new_resource`, the resources already written this
frame (the freshness state), and the recorded member lists of bind group
resources. Modelled from the spec: the Rust `RenderGraphBuilder` is not
part of the excerpt. -/
structure RenderGraphState where
  next_id : Nat
  written : List Nat
  bind_group_members : List (Nat × List Nat)
deriving DecidableEq, Repr

/-- Modelled from the spec: `new_resource` allocates a fresh handle. -/
def RenderGraphState.new_resource (st : RenderGraphState) : Nat × RenderGraphState :=
  (st.next_id, { st with next_id := st.next_id + 1 })

/-- The member resources of a bind group, per the builder's metadata. -/
def RenderGraphState.members (st : RenderGraphState) (bg : Nat) : List Nat :=
  ((st.bind_group_members.find? (fun p => p.1 == bg)).map (·.2)).getD []

/-- Modelled from the spec: `is_fresh` is the freshness query driving the
first-write policy of section 4.3. A resource is fresh exactly while its
freshness flag is still false, that is, while no write to it has been
recorded this frame; the first writer is the one entitled to clear. -/
def RenderGraphState.is_fresh (st : RenderGraphState) (h : Nat) : Bool :=
  !(st.written.contains h)

/-- Modelled from the spec: a node's declared dependency set, two
idempotently grown lists of read and written handles (section 4.2). -/
structure RenderDependencies where
  reads : List Nat
  writes : List Nat
deriving DecidableEq, Repr

/-- `RenderDependencies::new`: the empty dependency set. -/
def RenderDependencies.new : RenderDependencies := ⟨[], []⟩

/-- Modelled from the spec: `add_read`, idempotent. -/
def RenderDependencies.read (d : RenderDependencies) (h : Nat) : RenderDependencies :=
  { d with reads := if d.reads.contains h then d.reads else d.reads ++ [h] }

/-- Modelled from the spec: `add_write`, idempotent. -/
def RenderDependencies.write (d : RenderDependencies) (h : Nat) : RenderDependencies :=
  { d with writes := if d.writes.contains h then d.writes else d.writes ++ [h] }

/-- Modelled from the spec: `RenderDependencies::add_bind_group` expands a
composite bind group resource, at dependency-set construction time, into a
read dependency on every member resource (sections 3 and 4.2). -/
def RenderDependencies.add_bind_group (d : RenderDependencies) (st : RenderGraphState)
    (bg : Nat) : RenderDependencies :=
  (st.members bg).foldl RenderDependencies.read d

/-- Modelled from the spec: `add_node` records the node's dependency set
and, as a side effect of recording its write dependencies, sets every
written resource's freshness flag (section 4.3). -/
def RenderGraphState.add_node (st : RenderGraphState) (deps : RenderDependencies) :
    RenderGraphState :=
  { st with written := st.written ++ deps.writes.filter (fun w => !st.written.contains w) }

/- ## fullscreen_pass and blit (bevy_render_graph/src/std/fullscreen.rs) -/

/-- `wgpu::LoadOp` as used through bevy_render. -/
inductive LoadOp
  | Clear (color : LinearRgba)
  | Load
deriving DecidableEq, Repr

/-- `wgpu::StoreOp` as used through bevy_render. -/
inductive StoreOp
  | Store
  | Discard
deriving DecidableEq, Repr

/-- `wgpu::Operations`: the load and store operations of an attachment. -/
structure Operations where
  load : LoadOp
  store : StoreOp
deriving DecidableEq, Repr

/-- The `ops` computation of `fullscreen_pass` (fullscreen.rs lines 83-95),
as a function of `should_clear = graph.is_fresh(target)` and the requested
clear color. -/
def fullscreenOps (should_clear : Bool) (clear_color : Option LinearRgba) : Operations :=
  { load :=
      if should_clear then
        match clear_color with
        | some c => LoadOp.Clear c
        | none => LoadOp.Load
      else LoadOp.Load
    store := StoreOp.Store }

/-- The `ops` computation of `blit::custom` (fullscreen.rs lines 203-221),
as a function of `should_clear = graph.is_fresh(src_dst.dst)` and the
requested clear color. -/
def blitOps (should_clear : Bool) (clear_color : Option LinearRgba) : Operations :=
  if should_clear then
    match clear_color with
    | some c => { load := LoadOp.Clear c, store := StoreOp.Store }
    | none => { load := LoadOp.Load, store := StoreOp.Store }
  else { load := LoadOp.Load, store := StoreOp.Store }

/-- A registered node as observable in this development: its label, its
declared dependency set, the attachment operations it recorded, and the
handles its closure resolves through `ctx.get`, in resolution order. -/
structure NodeRecord where
  label : Option String
  deps : RenderDependencies
  ops : Operations
  resolved : List Nat
deriving DecidableEq, Repr

/-- The outcome of `fullscreen_pass`: the pipeline resource it allocated,
the node it registered, and the builder state afterwards. -/
structure FullscreenPassResult where
  pipeline : Nat
  node : NodeRecord
  state : RenderGraphState
deriving DecidableEq, Repr

/-- `fullscreen_pass` (fullscreen.rs lines 47-122): allocate the pipeline
resource, choose the attachment operations from the target's freshness and
the requested clear color, declare a write of the target plus the expanded
bind groups, and register a node whose closure resolves the target view
and the pipeline. -/
def fullscreen_pass (st : RenderGraphState) (target : Nat)
    (clear_color : Option LinearRgba) (bind_groups : List Nat) : FullscreenPassResult :=
  let (pipeline, st1) := st.new_resource
  let ops := fullscreenOps (st1.is_fresh target) clear_color
  let deps := bind_groups.foldl (fun d bg => d.add_bind_group st1 bg)
    (RenderDependencies.new.write target)
  { pipeline := pipeline
    node := { label := some "fullscreen_pass", deps := deps, ops := ops,
              resolved := [target, pipeline] }
    state := st1.add_node deps }

/-- `SrcDst<TextureView>`: a source and destination texture view pair. -/
structure SrcDst where
  src : Nat
  dst : Nat
deriving DecidableEq, Repr

/-- The outcome of `blit::custom`: the sampler, bind group and pipeline
resources it used or allocated, the node it registered, and the builder
state afterwards. -/
structure BlitResult where
  sampler : Nat
  bind_group : Nat
  pipeline : Nat
  node : NodeRecord
  state : RenderGraphState
deriving DecidableEq, Repr

/-- `blit::custom` (fullscreen.rs lines 159-243): take or allocate the
sampler, build the blit bind group over the source view and the sampler,
allocate the pipeline, choose the attachment operations from the
destination's freshness and the requested clear color, and register a node
declaring `deps![src_dst]` whose closure resolves the destination view,
the pipeline and the bind group. The `deps!` macro is modelled from the
spec as declaring a read of `src` and a write of `dst`. -/
def blit_custom (st : RenderGraphState) (src_dst : SrcDst)
    (sampler : Option Nat) (clear_color : Option LinearRgba) : BlitResult :=
  let (sampler, st1) :=
    match sampler with
    | some s => (s, st)
    | none => st.new_resource
  let (bind_group, st2) := st1.new_resource
  let st2 := { st2 with
    bind_group_members := (bind_group, [src_dst.src, sampler]) :: st2.bind_group_members }
  let (pipeline, st3) := st2.new_resource
  let ops := blitOps (st3.is_fresh src_dst.dst) clear_color
  let deps := (RenderDependencies.new.read src_dst.src).write src_dst.dst
  { sampler := sampler
    bind_group := bind_group
    pipeline := pipeline
    node := { label := some "blit_node", deps := deps, ops := ops,
              resolved := [src_dst.dst, pipeline, bind_group] }
    state := st3.add_node deps }

/- ## Scheduler / executor (modelled from the spec, section 4.4) -/

namespace RenderGraph

/-- Modelled from the spec: the scheduler's view of a graph, the list of
node dependency sets in authoring order; node identity is the authoring
index. -/
structure SchedGraph where
  nodes : List RenderDependencies
deriving DecidableEq, Repr

/-- The declared reads of the node at authoring index `i`. -/
def SchedGraph.nodeReads (g : SchedGraph) (i : Nat) : List Nat :=
  ((g.nodes.get? i).map RenderDependencies.reads).getD []

/-- The declared writes of the node at authoring index `i`. -/
def SchedGraph.nodeWrites (g : SchedGraph) (i : Nat) : List Nat :=
  ((g.nodes.get? i).map RenderDependencies.writes).getD []

/-- Whether two handle lists share an element. -/
def intersects (xs ys : List Nat) : Bool :=
  xs.any fun x => ys.contains x

/-- Modelled from the spec (section 4.4): there is an edge `a → b` (b must
run after a) when `a` writes a resource `b` reads, or when `a` and `b`
write a common resource and `a` was inserted earlier. -/
def edgeb (g : SchedGraph) (a b : Nat) : Bool :=
  decide (a < g.nodes.length) && decide (b < g.nodes.length) && (a != b) &&
    (intersects (g.nodeWrites a) (g.nodeReads b) ||
      (intersects (g.nodeWrites a) (g.nodeWrites b) && decide (a < b)))

/-- The edge-predecessors of node `b`. -/
def edgePreds (g : SchedGraph) (b : Nat) : List Nat :=
  (List.range g.nodes.length).filter fun a => edgeb g a b

/-- A node is ready when all of its edge-predecessors are already scheduled. -/
def readyb (g : SchedGraph) (done : List Nat) (b : Nat) : Bool :=
  (edgePreds g b).all fun a => done.contains a

/-- Pick the first (authoring order, the deterministic tie-break of section
4.4) unscheduled ready node, if any. -/
def pickNext (g : SchedGraph) (done : List Nat) : Option Nat :=
  (List.range g.nodes.length).find? fun b => !done.contains b && readyb g done b

/-- Kahn-style scheduling loop with a node budget (the fuel), per section
4.4: each round schedules the first ready node; when the ready set is
drained early or the budget is exhausted with nodes remaining, report a
dependency cycle. `done` holds the scheduled nodes, most recent first. -/
def scheduleAux (g : SchedGraph) : Nat → List Nat → Except RenderGraphError (List Nat)
  | 0, done =>
    if done.length = g.nodes.length then .ok done.reverse else .error .DependencyCycle
  | fuel + 1, done =>
    match pickNext g done with
    | some b => scheduleAux g fuel (b :: done)
    | none =>
      if done.length = g.nodes.length then .ok done.reverse else .error .DependencyCycle

/-- Compute the execution order of a graph, or fail with `DependencyCycle`. -/
def schedule (g : SchedGraph) : Except RenderGraphError (List Nat) :=
  scheduleAux g g.nodes.length []

/-- Modelled from the spec: `execute` computes the order and then invokes
each node's closure in that order. The returned list is the sequence of
closure invocations; on error it is not produced, so no closure has run. -/
def execute (g : SchedGraph) : Except RenderGraphError (List Nat) :=
  match schedule g with
  | .ok order => .ok order
  | .error e => .error e

/-- A nonempty directed path along scheduler edges. -/
inductive EdgePath (g : SchedGraph) : Nat → Nat → Prop
  | single {a b : Nat} : edgeb g a b = true → EdgePath g a b
  | cons {a b c : Nat} : edgeb g a b = true → EdgePath g b c → EdgePath g a c

/-- The scheduler's stack invariant: every scheduled node's
edge-predecessors lie strictly below it on the stack (were scheduled
earlier). -/
def goodStack (g : SchedGraph) : List Nat → Prop
  | [] => True
  | b :: rest => (∀ a, edgeb g a b = true → a ∈ rest) ∧ goodStack g rest

/-- The full invariant maintained by the scheduling loop on its stack of
scheduled nodes: no duplicates, all indices in range, and the stack
ordering respects the edges. -/
abbrev stackInv (g : SchedGraph) (done : List Nat) : Prop :=
  done.Nodup ∧ (∀ x ∈ done, x < g.nodes.length) ∧ goodStack g done

end RenderGraph

/- ## Theorems -/

/-- C10: `Atmosphere::with_density_multiplier` multiplies the scattering
and absorption vectors of each of the three layers by the multiplier and
leaves `bottom_radius`, `top_radius`, `ground_albedo`, and every layer's
`density_profile` and `phase_function` unchanged. -/
theorem with_density_multiplier_effect (a : Atmosphere) (m : ℚ) :
    (a.with_density_multiplier m).bottom_radius = a.bottom_radius ∧
    (a.with_density_multiplier m).top_radius = a.top_radius ∧
    (a.with_density_multiplier m).ground_albedo = a.ground_albedo ∧
    (a.with_density_multiplier m).layers.1.scattering = a.layers.1.scattering.smul m ∧
    (a.with_density_multiplier m).layers.1.absorption = a.layers.1.absorption.smul m ∧
    (a.with_density_multiplier m).layers.2.1.scattering = a.layers.2.1.scattering.smul m ∧
    (a.with_density_multiplier m).layers.2.1.absorption = a.layers.2.1.absorption.smul m ∧
    (a.with_density_multiplier m).layers.2.2.scattering = a.layers.2.2.scattering.smul m ∧
    (a.with_density_multiplier m).layers.2.2.absorption = a.layers.2.2.absorption.smul m ∧
    (a.with_density_multiplier m).layers.1.density_profile = a.layers.1.density_profile ∧
    (a.with_density_multiplier m).layers.1.phase_function = a.layers.1.phase_function ∧
    (a.with_density_multiplier m).layers.2.1.density_profile = a.layers.2.1.density_profile ∧
    (a.with_density_multiplier m).layers.2.1.phase_function = a.layers.2.1.phase_function ∧
    (a.with_density_multiplier m).layers.2.2.density_profile = a.layers.2.2.density_profile ∧
    (a.with_density_multiplier m).layers.2.2.phase_function = a.layers.2.2.phase_function := by
  refine ⟨rfl, rfl, rfl, rfl, rfl, rfl, rfl, rfl, rfl, rfl, rfl, rfl, rfl, rfl, rfl⟩

/-- C8: `BindGroupLayout` equality holds exactly when the ids agree, the
hash is determined solely by the id (so `Eq` and `Hash` are mutually
consistent), and two layouts wrapped separately from the same wgpu value
receive distinct atomic ids and compare unequal. -/
theorem bind_group_layout_eq_hash_by_id (a b : BindGroupLayout) (s : List Nat)
    (c : Nat) (v : WgpuBindGroupLayout) :
    (BindGroupLayout.beq a b = true ↔ a.id = b.id) ∧
    (a.id = b.id →
      BindGroupLayout.hashInto s a = BindGroupLayout.hashInto s b) ∧
    (BindGroupLayout.beq a b = true →
      BindGroupLayout.hashInto s a = BindGroupLayout.hashInto s b) ∧
    BindGroupLayout.beq (BindGroupLayout.fromWgpu c v).1
      (BindGroupLayout.fromWgpu (BindGroupLayout.fromWgpu c v).2 v).1 = false := by
  refine ⟨?_, ?_, ?_, ?_⟩
  · simp [BindGroupLayout.beq]
  · intro h; simp [BindGroupLayout.hashInto, h]
  · intro h
    simp only [BindGroupLayout.beq, beq_iff_eq] at h
    simp [BindGroupLayout.hashInto, h]
  · simp [BindGroupLayout.beq, BindGroupLayout.fromWgpu]

/-- Witness for C8 at a concrete pair of layouts sharing an id but wrapping
different wgpu values. -/
theorem bind_group_layout_eq_hash_witness :
    BindGroupLayout.beq ⟨3, ⟨7⟩⟩ ⟨3, ⟨9⟩⟩ = true ∧
    BindGroupLayout.hashInto [] ⟨3, ⟨7⟩⟩ = BindGroupLayout.hashInto [] ⟨3, ⟨9⟩⟩ :=
  ⟨(bind_group_layout_eq_hash_by_id ⟨3, ⟨7⟩⟩ ⟨3, ⟨9⟩⟩ [] 0 ⟨0⟩).1.mpr rfl,
   (bind_group_layout_eq_hash_by_id ⟨3, ⟨7⟩⟩ ⟨3, ⟨9⟩⟩ [] 0 ⟨0⟩).2.1 rfl⟩

/-- C6: with the render sub-app present, `AtmospherePlugin::finish` logs a
warning and registers nothing when either capability check fails, and
registers exactly all of its resources, systems, render-graph nodes and
edges when and only when both checks pass. -/
theorem atmosphere_finish_capability_checks (caps : RenderAdapterCaps) :
    ((caps.compute_shaders = false ∨ caps.rgba16float_storage_binding = false) →
      (atmospherePluginFinish true caps).warnings.length = 1 ∧
      (atmospherePluginFinish true caps).resources = [] ∧
      (atmospherePluginFinish true caps).systems = [] ∧
      (atmospherePluginFinish true caps).graph_nodes = [] ∧
      (atmospherePluginFinish true caps).graph_edge_sets = []) ∧
    (atmospherePluginFinish true caps =
        ⟨[], atmosphereResources, atmosphereSystems, atmosphereGraphNodes,
         atmosphereGraphEdgeSets⟩ ↔
      caps.compute_shaders = true ∧ caps.rgba16float_storage_binding = true) := by
  obtain ⟨cs, sb⟩ := caps
  cases cs <;> cases sb <;> simp [atmospherePluginFinish]

/-- Witness for C6: a missing compute-shader capability logs one warning
and registers nothing. -/
theorem atmosphere_finish_capability_witness :
    (atmospherePluginFinish true ⟨false, true⟩).warnings.length = 1 ∧
    (atmospherePluginFinish true ⟨false, true⟩).resources = [] ∧
    (atmospherePluginFinish true ⟨false, true⟩).systems = [] ∧
    (atmospherePluginFinish true ⟨false, true⟩).graph_nodes = [] ∧
    (atmospherePluginFinish true ⟨false, true⟩).graph_edge_sets = [] :=
  (atmosphere_finish_capability_checks ⟨false, true⟩).1 (Or.inl rfl)

/-- C9: the default `AsBindGroup::as_bind_group` propagates exactly the
error of `unprepared_bind_group`, and on success returns the bindings and
data produced by `unprepared_bind_group` together with a bind group created
from one `BindGroupEntry` per binding, each entry keeping its binding's
index. -/
theorem as_bind_group_default_impl {δ : Type} (label : Option String)
    (layout : BindGroupLayout) (e : AsBindGroupError) (u : UnpreparedBindGroup δ) :
    (as_bind_group label layout
        (Except.error e : Except AsBindGroupError (UnpreparedBindGroup δ)) =
      Except.error e) ∧
    (as_bind_group label layout (Except.ok u) =
      Except.ok ⟨u.bindings,
        createBindGroup label layout
          (u.bindings.map fun ib => BindGroupEntry.mk ib.1 ib.2.get_binding),
        u.data⟩) ∧
    ((u.bindings.map fun ib => BindGroupEntry.mk ib.1 ib.2.get_binding).map
        BindGroupEntry.binding = u.bindings.map Prod.fst) ∧
    ((u.bindings.map fun ib => BindGroupEntry.mk ib.1 ib.2.get_binding).length =
      u.bindings.length) := by
  refine ⟨rfl, rfl, ?_, List.length_map _ _⟩
  induction u.bindings with
  | nil => rfl
  | cons hd tl ih => simp [ih]

/-- C7: `MainOpaquePass3dNode::run` returns `Ok(())` on every input; a
skybox pipeline not yet in the `PipelineCache` only skips the skybox draw,
and phase render errors are logged, never propagated. -/
theorem main_opaque_pass_run_never_fails (inp : MainOpaqueViewInput) :
    (mainOpaquePassRun inp).result = Except.ok () ∧
    (∀ pid bg, inp.skybox_pipeline = some pid → inp.skybox_bind_group = some bg →
      getRenderPipeline inp.pipeline_cache pid = none →
      (mainOpaquePassRun inp).skybox_drawn = false) ∧
    (∀ err, inp.opaque_phase.is_empty = false →
      inp.opaque_phase.render_result = Except.error err →
      ("Error encountered while rendering the opaque phase " ++ err) ∈
        (mainOpaquePassRun inp).logs) ∧
    (∀ err, inp.alpha_mask_phase.is_empty = false →
      inp.alpha_mask_phase.render_result = Except.error err →
      ("Error encountered while rendering the alpha mask phase " ++ err) ∈
        (mainOpaquePassRun inp).logs) := by
  refine ⟨rfl, ?_, ?_, ?_⟩
  · intro pid bg hpid hbg hcache
    simp [mainOpaquePassRun, hpid, hbg, hcache]
  · intro err hne hres
    simp [mainOpaquePassRun, hne, hres]
  · intro err hne hres
    simp [mainOpaquePassRun, hne, hres]

/-- Witness for C7: both phases nonempty and failing, skybox components
present but the pipeline missing from the cache; the run still returns
`Ok(())`, logs both phase errors, and skips the skybox. -/
theorem main_opaque_pass_run_witness :
    (mainOpaquePassRun ⟨none, ⟨false, Except.error "boom"⟩, ⟨false, Except.error "mask"⟩,
        some 4, some (1, 2), []⟩).result = Except.ok () ∧
    (mainOpaquePassRun ⟨none, ⟨false, Except.error "boom"⟩, ⟨false, Except.error "mask"⟩,
        some 4, some (1, 2), []⟩).skybox_drawn = false ∧
    ("Error encountered while rendering the opaque phase " ++ "boom") ∈
      (mainOpaquePassRun ⟨none, ⟨false, Except.error "boom"⟩, ⟨false, Except.error "mask"⟩,
        some 4, some (1, 2), []⟩).logs ∧
    ("Error encountered while rendering the alpha mask phase " ++ "mask") ∈
      (mainOpaquePassRun ⟨none, ⟨false, Except.error "boom"⟩, ⟨false, Except.error "mask"⟩,
        some 4, some (1, 2), []⟩).logs :=
  ⟨(main_opaque_pass_run_never_fails _).1,
   (main_opaque_pass_run_never_fails _).2.1 4 (1, 2) rfl rfl rfl,
   (main_opaque_pass_run_never_fails _).2.2.1 "boom" rfl rfl,
   (main_opaque_pass_run_never_fails _).2.2.2 "mask" rfl rfl⟩

/-- C5: resolving a handle whose epoch differs from the table's current
epoch fails with `InvalidHandle` and never returns an object, and an
in-epoch handle whose index is out of the table's range also fails with
`InvalidHandle`. -/
theorem resolve_stale_or_out_of_range {α : Type} (t : ResourceTable α)
    (h : ResourceHandle) :
    (h.epoch ≠ t.epoch →
      t.resolve h = Except.error RenderGraphError.InvalidHandle ∧
      ∀ o : α, t.resolve h ≠ Except.ok o) ∧
    (t.objects.length ≤ h.index →
      t.resolve h = Except.error RenderGraphError.InvalidHandle) := by
  constructor
  · intro hep
    have hres : t.resolve h = Except.error RenderGraphError.InvalidHandle := by
      simp [ResourceTable.resolve, hep]
    exact ⟨hres, fun o hok => by rw [hres] at hok; cases hok⟩
  · intro hidx
    have hnone : t.objects[h.index]? = none := by
      rw [List.getElem?_eq_none_iff]
      exact hidx
    by_cases hep : h.epoch = t.epoch
    · simp [ResourceTable.resolve, hep, hnone]
    · simp [ResourceTable.resolve, hep]

/-- Witness for C5 at a concrete table with epoch 1 and a single object:
an epoch-0 handle fails, and an in-epoch handle with index 5 fails. -/
theorem resolve_stale_or_out_of_range_witness :
    ResourceTable.resolve ⟨1, [true]⟩ ⟨0, 0⟩ =
      Except.error RenderGraphError.InvalidHandle ∧
    ResourceTable.resolve ⟨1, [true]⟩ ⟨5, 1⟩ =
      Except.error RenderGraphError.InvalidHandle :=
  ⟨((resolve_stale_or_out_of_range ⟨1, [true]⟩ ⟨0, 0⟩).1 (by decide)).1,
   (resolve_stale_or_out_of_range ⟨1, [true]⟩ ⟨5, 1⟩).2 (by decide)⟩

/-- C1: for both `fullscreen_pass` and `blit::custom`, when no write to the
target has yet been recorded this frame (freshness flag false) and a clear
color was requested, the recorded load operation is `Clear(clear_color)`;
when a write was already recorded (flag true) the load operation is `Load`
regardless of the requested clear color; the store operation is always
`Store`. -/
theorem fullscreen_blit_load_store_policy (st : RenderGraphState) (target : Nat)
    (cc : Option LinearRgba) (c : LinearRgba) (bgs : List Nat) (sd : SrcDst)
    (smp : Option Nat) :
    (st.written.contains target = false → cc = some c →
      (fullscreen_pass st target cc bgs).node.ops =
        { load := LoadOp.Clear c, store := StoreOp.Store }) ∧
    (st.written.contains target = true →
      (fullscreen_pass st target cc bgs).node.ops.load = LoadOp.Load) ∧
    (fullscreen_pass st target cc bgs).node.ops.store = StoreOp.Store ∧
    (st.written.contains sd.dst = false → cc = some c →
      (blit_custom st sd smp cc).node.ops =
        { load := LoadOp.Clear c, store := StoreOp.Store }) ∧
    (st.written.contains sd.dst = true →
      (blit_custom st sd smp cc).node.ops.load = LoadOp.Load) ∧
    (blit_custom st sd smp cc).node.ops.store = StoreOp.Store := by
  have hf : (fullscreen_pass st target cc bgs).node.ops =
      fullscreenOps (!st.written.contains target) cc := rfl
  have hb : (blit_custom st sd smp cc).node.ops =
      blitOps (!st.written.contains sd.dst) cc := by
    cases smp <;> rfl
  refine ⟨?_, ?_, ?_, ?_, ?_, ?_⟩
  · intro h hcc; rw [hf, h, hcc]; rfl
  · intro h; rw [hf, h]; rfl
  · rw [hf]; rfl
  · intro h hcc; rw [hb, h, hcc]; rfl
  · intro h; rw [hb, h]; rfl
  · rw [hb]; cases (!st.written.contains sd.dst) <;> cases cc <;> rfl

/-- Witness for C1: with an empty written set the requested red clear is
recorded; once the target is in the written set the load operation is
`Load`. -/
theorem fullscreen_blit_load_store_policy_witness :
    (fullscreen_pass ⟨10, [], []⟩ 0 (some ⟨1, 0, 0, 1⟩) []).node.ops =
      { load := LoadOp.Clear ⟨1, 0, 0, 1⟩, store := StoreOp.Store } ∧
    (fullscreen_pass ⟨10, [0], []⟩ 0 (some ⟨1, 0, 0, 1⟩) []).node.ops.load =
      LoadOp.Load ∧
    (blit_custom ⟨10, [], []⟩ ⟨1, 0⟩ none (some ⟨1, 0, 0, 1⟩)).node.ops =
      { load := LoadOp.Clear ⟨1, 0, 0, 1⟩, store := StoreOp.Store } ∧
    (blit_custom ⟨10, [0], []⟩ ⟨1, 0⟩ none (some ⟨1, 0, 0, 1⟩)).node.ops.load =
      LoadOp.Load :=
  ⟨(fullscreen_blit_load_store_policy ⟨10, [], []⟩ 0 (some ⟨1, 0, 0, 1⟩) ⟨1, 0, 0, 1⟩
      [] ⟨1, 0⟩ none).1 rfl rfl,
   (fullscreen_blit_load_store_policy ⟨10, [0], []⟩ 0 (some ⟨1, 0, 0, 1⟩) ⟨1, 0, 0, 1⟩
      [] ⟨1, 0⟩ none).2.1 rfl,
   (fullscreen_blit_load_store_policy ⟨10, [], []⟩ 0 (some ⟨1, 0, 0, 1⟩) ⟨1, 0, 0, 1⟩
      [] ⟨1, 0⟩ none).2.2.2.1 rfl rfl,
   (fullscreen_blit_load_store_policy ⟨10, [0], []⟩ 0 (some ⟨1, 0, 0, 1⟩) ⟨1, 0, 0, 1⟩
      [] ⟨1, 0⟩ none).2.2.2.2.1 rfl⟩

/-- C2 (refuted by the code): at a concrete registration, the closures of
both `fullscreen_pass` and `blit::custom` resolve their freshly allocated
pipeline handle through `ctx.get`, and the blit closure also resolves its
bind group handle, yet neither handle appears among the declared read or
write dependencies of the registered node; only the target (and the blit
source and destination) are declared. -/
theorem fullscreen_blit_resolve_undeclared :
    (let r := fullscreen_pass ⟨10, [], [(5, [1, 2])]⟩ 0 none [5]
     (0 ∈ r.node.deps.writes) ∧
     r.pipeline ∈ r.node.resolved ∧
     r.pipeline ∉ r.node.deps.reads ∧ r.pipeline ∉ r.node.deps.writes) ∧
    (let b := blit_custom ⟨10, [], []⟩ ⟨0, 1⟩ none none
     (b.node.deps.reads = [0] ∧ b.node.deps.writes = [1]) ∧
     (b.pipeline ∈ b.node.resolved ∧
      b.pipeline ∉ b.node.deps.reads ∧ b.pipeline ∉ b.node.deps.writes) ∧
     (b.bind_group ∈ b.node.resolved ∧
      b.bind_group ∉ b.node.deps.reads ∧ b.bind_group ∉ b.node.deps.writes)) := by
  decide

/-- Membership is preserved when another read is added. -/
theorem mem_reads_read (d : RenderDependencies) (k a : Nat) (ha : a ∈ d.reads) :
    a ∈ (d.read k).reads := by
  unfold RenderDependencies.read
  dsimp only
  split
  · exact ha
  · exact List.mem_append_left _ ha

/-- Adding a read makes the added handle a member. -/
theorem mem_reads_read_self (d : RenderDependencies) (k : Nat) :
    k ∈ (d.read k).reads := by
  unfold RenderDependencies.read
  dsimp only
  split
  · next hc => exact List.elem_iff.mp hc
  · exact List.mem_append_right _ (by simp)

/-- Read membership survives folding further reads over a list. -/
theorem mem_reads_foldl_read (ms : List Nat) (d : RenderDependencies) (a : Nat)
    (ha : a ∈ d.reads) : a ∈ (ms.foldl RenderDependencies.read d).reads := by
  induction ms generalizing d with
  | nil => exact ha
  | cons hd tl ih => exact ih _ (mem_reads_read d hd a ha)

/-- Every element of the folded list ends up among the reads. -/
theorem mem_reads_foldl_read_of_mem (ms : List Nat) (d : RenderDependencies) (m : Nat)
    (hm : m ∈ ms) : m ∈ (ms.foldl RenderDependencies.read d).reads := by
  induction ms generalizing d with
  | nil => cases hm
  | cons hd tl ih =>
    rcases List.mem_cons.mp hm with h | h
    · subst h
      exact mem_reads_foldl_read tl _ m (mem_reads_read_self d m)
    · exact ih _ h

/-- A common element makes `intersects` true. -/
theorem intersects_of_mem {xs ys : List Nat} {m : Nat} (hx : m ∈ xs) (hy : m ∈ ys) :
    RenderGraph.intersects xs ys = true := by
  unfold RenderGraph.intersects
  rw [List.any_eq_true]
  exact ⟨m, hx, List.elem_iff.mpr hy⟩

/-- C3: `RenderDependencies::add_bind_group` adds, at dependency-set
construction time, a read dependency on every member resource of the bind
group, and consequently the scheduler places the consuming node after any
node that wrote any member: in a two-node graph whose first node writes a
member and whose second node carries the expanded dependency set, the
edge first → second is present. -/
theorem add_bind_group_reads_members (d : RenderDependencies) (st : RenderGraphState)
    (bg m : Nat) (hm : m ∈ st.members bg) :
    m ∈ (d.add_bind_group st bg).reads ∧
    ∀ wd : RenderDependencies, m ∈ wd.writes →
      RenderGraph.edgeb ⟨[wd, d.add_bind_group st bg]⟩ 0 1 = true := by
  have hmem : m ∈ (d.add_bind_group st bg).reads :=
    mem_reads_foldl_read_of_mem _ _ _ hm
  refine ⟨hmem, ?_⟩
  intro wd hw
  have hint : RenderGraph.intersects wd.writes (d.add_bind_group st bg).reads = true :=
    intersects_of_mem hw hmem
  simp [RenderGraph.edgeb, RenderGraph.SchedGraph.nodeWrites,
        RenderGraph.SchedGraph.nodeReads, hint]

/-- Witness for C3: member 1 of bind group 5 becomes a read, and a node
writing 1 is scheduled before the consuming node. -/
theorem add_bind_group_reads_members_witness :
    1 ∈ (RenderDependencies.new.add_bind_group ⟨10, [], [(5, [1, 2])]⟩ 5).reads ∧
    RenderGraph.edgeb ⟨[⟨[], [1]⟩,
        RenderDependencies.new.add_bind_group ⟨10, [], [(5, [1, 2])]⟩ 5]⟩ 0 1 = true := by
  have h := add_bind_group_reads_members RenderDependencies.new ⟨10, [], [(5, [1, 2])]⟩
    5 1 (by decide)
  exact ⟨h.1, h.2 ⟨[], [1]⟩ (by decide)⟩

namespace RenderGraph

/-- Bounds and irreflexivity extracted from an edge. -/
theorem edgeb_bounds {g : SchedGraph} {a b : Nat} (h : edgeb g a b = true) :
    a < g.nodes.length ∧ b < g.nodes.length ∧ a ≠ b := by
  simp only [edgeb, Bool.and_eq_true, decide_eq_true_eq, bne_iff_ne] at h
  exact ⟨h.1.1.1, h.1.1.2, h.1.2⟩

/-- What a successful `pickNext` guarantees: the picked node is in range,
unscheduled, and all of its edge-predecessors are already scheduled. -/
theorem pickNext_spec {g : SchedGraph} {done : List Nat} {b : Nat}
    (h : pickNext g done = some b) :
    b < g.nodes.length ∧ (b ∈ done → False) ∧
      ∀ a, edgeb g a b = true → a ∈ done := by
  unfold pickNext at h
  have hmem := List.mem_of_find?_eq_some h
  have hp := List.find?_some h
  rw [Bool.and_eq_true, Bool.not_eq_true'] at hp
  refine ⟨List.mem_range.mp hmem, ?_, ?_⟩
  · intro hbd
    have hb : done.contains b = true := List.elem_iff.mpr hbd
    rw [hp.1] at hb
    cases hb
  · intro a ha
    have hready := hp.2
    unfold readyb at hready
    rw [List.all_eq_true] at hready
    have haP : a ∈ edgePreds g b := by
      unfold edgePreds
      rw [List.mem_filter]
      exact ⟨List.mem_range.mpr (edgeb_bounds ha).1, ha⟩
    exact List.elem_iff.mp (hready a haP)

/-- The loop invariant is preserved when the picked node is pushed. -/
theorem stackInv_cons {g : SchedGraph} {done : List Nat} {b : Nat}
    (hinv : stackInv g done) (hpick : pickNext g done = some b) :
    stackInv g (b :: done) := by
  obtain ⟨hnd, hbdd, hgs⟩ := hinv
  obtain ⟨hblt, hbnm, hready⟩ := pickNext_spec hpick
  refine ⟨List.nodup_cons.mpr ⟨hbnm, hnd⟩, ?_, ?_⟩
  · intro x hx
    rcases List.mem_cons.mp hx with h | h
    · subst h; exact hblt
    · exact hbdd x h
  · show (∀ a, edgeb g a b = true → a ∈ done) ∧ goodStack g done
    exact ⟨hready, hgs⟩

/-- A successful run of the scheduling loop ends with an invariant-holding
stack containing as many nodes as the graph. -/
theorem scheduleAux_ok {g : SchedGraph} :
    ∀ (fuel : Nat) (done ord : List Nat), stackInv g done →
      scheduleAux g fuel done = Except.ok ord →
      ∃ doneF, ord = doneF.reverse ∧ stackInv g doneF ∧
        doneF.length = g.nodes.length := by
  intro fuel
  induction fuel with
  | zero =>
    intro done ord hinv h
    unfold scheduleAux at h
    split at h
    · next hlen =>
      injection h with h2
      exact ⟨done, h2.symm, hinv, hlen⟩
    · exact Except.noConfusion h
  | succ fuel ih =>
    intro done ord hinv h
    unfold scheduleAux at h
    cases hp : pickNext g done with
    | some b =>
      rw [hp] at h
      exact ih _ _ (stackInv_cons hinv hp) h
    | none =>
      rw [hp] at h
      dsimp only at h
      split at h
      · next hlen =>
        injection h with h2
        exact ⟨done, h2.symm, hinv, hlen⟩
      · exact Except.noConfusion h

/-- A nodup list of in-range indices of full length contains every index. -/
theorem mem_of_complete {g : SchedGraph} {doneF : List Nat}
    (hnd : doneF.Nodup) (hbd : ∀ x ∈ doneF, x < g.nodes.length)
    (hlen : doneF.length = g.nodes.length) :
    ∀ i, i < g.nodes.length → i ∈ doneF := by
  intro i hi
  have h1 : doneF.toFinset ⊆ Finset.range g.nodes.length := by
    intro x hx
    exact Finset.mem_range.mpr (hbd x (List.mem_toFinset.mp hx))
  have h2 : doneF.toFinset = Finset.range g.nodes.length := by
    refine Finset.eq_of_subset_of_card_le h1 ?_
    rw [Finset.card_range, List.toFinset_card_of_nodup hnd, hlen]
  have h3 : i ∈ doneF.toFinset := by
    rw [h2]
    exact Finset.mem_range.mpr hi
  exact List.mem_toFinset.mp h3

/-- On an invariant-holding stack, the source of an edge whose target is on
the stack lies strictly deeper (was scheduled strictly earlier). -/
theorem indexOf_lt_of_edge {g : SchedGraph} :
    ∀ (done : List Nat), goodStack g done → done.Nodup →
      ∀ a b, edgeb g a b = true → b ∈ done →
        a ∈ done ∧ done.indexOf b < done.indexOf a := by
  intro done
  induction done with
  | nil => intro _ _ a b _ hb; cases hb
  | cons c rest ih =>
    intro hgs hnd a b he hb
    have hgs2 : (∀ x, edgeb g x c = true → x ∈ rest) ∧ goodStack g rest := hgs
    have hnd2 := List.nodup_cons.mp hnd
    rcases List.mem_cons.mp hb with hbc | hbr
    · subst hbc
      have har : a ∈ rest := hgs2.1 a he
      have hanec : a ≠ b := (edgeb_bounds he).2.2
      refine ⟨List.mem_cons_of_mem _ har, ?_⟩
      rw [List.indexOf_cons_self, List.indexOf_cons_ne rest hanec.symm]
      exact Nat.succ_pos _
    · have hbnec : b ≠ c := fun hh => hnd2.1 (hh ▸ hbr)
      obtain ⟨har, hlt⟩ := ih hgs2.2 hnd2.2 a b he hbr
      have hanec : a ≠ c := fun hh => hnd2.1 (hh ▸ har)
      refine ⟨List.mem_cons_of_mem _ har, ?_⟩
      rw [List.indexOf_cons_ne rest hbnec.symm, List.indexOf_cons_ne rest hanec.symm]
      omega

/-- The previous lemma, lifted along a nonempty edge path. -/
theorem indexOf_lt_of_path {g : SchedGraph} {done : List Nat}
    (hgs : goodStack g done) (hnd : done.Nodup) :
    ∀ {a b : Nat}, EdgePath g a b → b ∈ done →
      a ∈ done ∧ done.indexOf b < done.indexOf a := by
  intro a b hp
  induction hp with
  | single he => intro hb; exact indexOf_lt_of_edge done hgs hnd _ _ he hb
  | cons he _ ih =>
    intro hb
    obtain ⟨hcd, hlt1⟩ := ih hb
    obtain ⟨had, hlt2⟩ := indexOf_lt_of_edge done hgs hnd _ _ he hcd
    exact ⟨had, Nat.lt_trans hlt1 hlt2⟩

/-- The source of an edge path is an in-range node index. -/
theorem edgePath_src_lt {g : SchedGraph} {a b : Nat} (h : EdgePath g a b) :
    a < g.nodes.length := by
  cases h with
  | single he => exact (edgeb_bounds he).1
  | cons he _ => exact (edgeb_bounds he).1

/-- The only error the scheduling loop ever reports is `DependencyCycle`. -/
theorem scheduleAux_error_cycle {g : SchedGraph} :
    ∀ (fuel : Nat) (done : List Nat) (e : RenderGraphError),
      scheduleAux g fuel done = Except.error e →
      e = RenderGraphError.DependencyCycle := by
  intro fuel
  induction fuel with
  | zero =>
    intro done e h
    unfold scheduleAux at h
    split at h
    · exact Except.noConfusion h
    · injection h with h2
      exact h2.symm
  | succ fuel ih =>
    intro done e h
    unfold scheduleAux at h
    cases hp : pickNext g done with
    | some b =>
      rw [hp] at h
      exact ih _ _ h
    | none =>
      rw [hp] at h
      dsimp only at h
      split at h
      · exact Except.noConfusion h
      · injection h with h2
        exact h2.symm

/-- C4: for every graph whose dependency relation contains a cycle,
`execute` fails with the `DependencyCycle` error. `execute` is a total
function, so it terminates on every input, and in the error case the
execution trace (the sequence of closure invocations, the payload of the
`ok` case) is never produced, so no node's closure runs. -/
theorem execute_cycle_fails (g : SchedGraph) (hcyc : ∃ a, EdgePath g a a) :
    execute g = Except.error RenderGraphError.DependencyCycle := by
  obtain ⟨a, hpath⟩ := hcyc
  have hnotok : ∀ ord, ¬ schedule g = Except.ok ord := by
    intro ord hok
    obtain ⟨doneF, _, hinvF, hlen⟩ :=
      scheduleAux_ok g.nodes.length [] ord
        ⟨List.nodup_nil, fun x hx => absurd hx (List.not_mem_nil x), True.intro⟩ hok
    obtain ⟨hnd, hbd, hgs⟩ := hinvF
    have ha : a ∈ doneF := mem_of_complete hnd hbd hlen a (edgePath_src_lt hpath)
    have hlt := (indexOf_lt_of_path hgs hnd hpath ha).2
    omega
  cases hs : schedule g with
  | ok ord => exact absurd hs (hnotok ord)
  | error e =>
    have he : e = RenderGraphError.DependencyCycle :=
      scheduleAux_error_cycle g.nodes.length [] e hs
    unfold execute
    rw [hs, he]

/-- Witness for C4: in the two-node graph where node X writes R1 and reads
R2 while node Y writes R2 and reads R1, the dependency relation has a
cycle and `execute` fails with `DependencyCycle`. -/
theorem execute_cycle_fails_witness :
    (∃ a, EdgePath ⟨[⟨[2], [1]⟩, ⟨[1], [2]⟩]⟩ a a) ∧
    execute ⟨[⟨[2], [1]⟩, ⟨[1], [2]⟩]⟩ =
      Except.error RenderGraphError.DependencyCycle := by
  have hp : EdgePath ⟨[⟨[2], [1]⟩, ⟨[1], [2]⟩]⟩ 0 0 :=
    @EdgePath.cons ⟨[⟨[2], [1]⟩, ⟨[1], [2]⟩]⟩ 0 1 0 (by decide)
      (@EdgePath.single ⟨[⟨[2], [1]⟩, ⟨[1], [2]⟩]⟩ 1 0 (by decide))
  exact ⟨⟨0, hp⟩, execute_cycle_fails _ ⟨0, hp⟩⟩

end RenderGraph
